import Mathlib

set_option linter.unusedVariables false

/-! Shallow embedding of the form-automation repository's batch/retry engine
(`src/unnamed/part_000`, duplicated in `src/unnamed/part_003`) and of the
form-detection engine (`src/form-detection-engine.js`). -/

/-- Opaque row data handed to the per-row processor. -/
abbrev Row := String

/-- Opaque batch configuration value. -/
abbrev Config := String

/-- Batch lifecycle status strings used by the engine. -/
inductive Status where
  | scheduled
  | running
  | completed
  | failed
deriving DecidableEq, Repr

/-- `progress` record of a batch: `{ total, processed, failed, succeeded }`. -/
structure Progress where
  total : Nat
  processed : Nat
  failed : Nat
  succeeded : Nat
deriving DecidableEq, Repr

/-- A failure record `{ row, profile, error, attempt }` pushed by `executeBatch`
and consumed by `retryFailedSubmissions`. -/
structure FailureRecord where
  row : Row
  profile : String
  error : String
  attempt : Nat
deriving DecidableEq, Repr

/-- The summary computed at the end of `executeBatch`. -/
structure Summary where
  total : Nat
  succeeded : Nat
  failed : Nat
  completedAt : Nat
deriving DecidableEq, Repr

/-- The `{ profile, row, status }` object returned by the per-row processor on
success (`processForm` in part_000 / `processFormForBatch` in part_003). -/
structure ProcResult where
  profile : String
  row : Row
  status : String
deriving DecidableEq, Repr

/-- A batch object as created by `scheduleBatchRun`.  `id` is modelled as a
`Nat` drawn from a fresh-id counter (the source uses `uuidv4()`); timestamps
are modelled as readings of a monotone tick counter (the source uses
`Date.now()`). -/
structure Batch where
  id : Nat
  profile : String
  batchConfig : Config
  inputRows : List Row
  status : Status
  progress : Progress
  createdAt : Nat
  updatedAt : Nat
  logs : List String
  summary : Option Summary
  failures : List FailureRecord
  retries : List String
deriving DecidableEq, Repr

/-- Events emitted on `batchEmitter`. -/
inductive Event where
  | batchStarted (id : Nat)
  | progress (id : Nat) (p : Progress)
  | batchCompleted (id : Nat) (s : Summary)
  | batchFinalized (id : Nat) (s : Summary)
deriving DecidableEq, Repr

/-- Engine state: the in-memory `batches` registry (a `Map` iterated in
insertion order, modelled as a list), the fresh-id counter, the clock tick,
and the last successfully persisted copy of the registry (the contents of
`batch-state.json`). -/
structure EngineState where
  batches : List Batch
  nextId : Nat
  tick : Nat
  persisted : List Batch
deriving DecidableEq, Repr

/-- One `Date.now()` call: reads the clock and advances it. -/
def now (s : EngineState) : Nat × EngineState :=
  (s.tick, { s with tick := s.tick + 1 })

/-- The retry policy `{ maxAttempts, retryDelayMs }`; either field may be
absent (or `0`, which is falsy in the source's `||` defaulting). -/
structure RetryPolicy where
  maxAttempts : Option Nat
  retryDelayMs : Option Nat
deriving DecidableEq, Repr

namespace Engine0

/-- `persistBatchState` from part_000: writes the registry to
`batch-state.json`, but catches and swallows any write error
(`console.error` only).  `pf` ("persist fails") models the availability of
the underlying persistence: when `true`, `fs.writeFileSync` throws and the
durable copy is left unchanged — and no error escapes to the caller. -/
def persistBatchState (pf : Bool) (s : EngineState) : EngineState :=
  if pf then s else { s with persisted := s.batches }

/-- `scheduleBatchRun(profile, batchConfig)` from part_000: creates a fresh
batch in `scheduled` state with zeroed progress, appends it to the registry,
persists, and returns the fresh id.  Note the return type: the function
never throws — a persistence failure inside `persistBatchState` is swallowed
there. -/
def scheduleBatchRun (pf : Bool) (profile : String) (batchConfig : Config)
    (s : EngineState) : Nat × EngineState :=
  let batchId := s.nextId
  let s := { s with nextId := s.nextId + 1 }
  let (t1, s) := now s
  let (t2, s) := now s
  let batch : Batch :=
    { id := batchId, profile := profile, batchConfig := batchConfig,
      inputRows := [], status := .scheduled,
      progress := { total := 0, processed := 0, failed := 0, succeeded := 0 },
      createdAt := t1, updatedAt := t2, logs := [], summary := none,
      failures := [], retries := [] }
  let s := { s with batches := s.batches ++ [batch] }
  let s := persistBatchState pf s
  (batchId, s)

/-- `[...batches.values()].find(b => b.profile === profile && b.status ===
'scheduled')`: first entry in registry insertion order matching the
predicate, together with its position. -/
def findScheduled (profile : String) : List Batch → Option (Nat × Batch)
  | [] => none
  | b :: bs =>
    if b.profile = profile ∧ b.status = .scheduled then some (0, b)
    else match findScheduled profile bs with
         | some (i, b') => some (i + 1, b')
         | none => none

/-- `batches.get(batchId)`: first entry with the given id, with its
position. -/
def findById (batchId : Nat) : List Batch → Option (Nat × Batch)
  | [] => none
  | b :: bs =>
    if b.id = batchId then some (0, b)
    else match findById batchId bs with
         | some (i, b') => some (i + 1, b')
         | none => none

/-- Output of the per-row loop of `executeBatch`: the mutated batch entry,
the `results` and `failures` arrays, the engine state and the emitted
events. -/
structure RowsOut where
  batch : Batch
  results : List ProcResult
  fails : List FailureRecord
  state : EngineState
  events : List Event
deriving Repr

/-- The `for (const [idx, row] of inputRows.entries())` loop of
`executeBatch`.  `proc` is the external per-row processing capability
(`processForm`); `i` is the registry position of the batch entry (the source
mutates the entry in place, which updates the registry by reference). -/
def runRows (pf : Bool) (proc : String → Row → Except String ProcResult)
    (i : Nat) (b : Batch) (rows : List Row) (results : List ProcResult)
    (fails : List FailureRecord) (s : EngineState) (evs : List Event) :
    RowsOut :=
  match rows with
  | [] => ⟨b, results, fails, s, evs⟩
  | row :: rest =>
    let step : Batch × List ProcResult × List FailureRecord :=
      match proc b.profile row with
      | .ok r =>
        ({ b with progress := { b.progress with succeeded := b.progress.succeeded + 1 } },
         results ++ [r], fails)
      | .error e =>
        ({ b with progress := { b.progress with failed := b.progress.failed + 1 } },
         results,
         fails ++ [{ row := row, profile := b.profile, error := e, attempt := 1 }])
    let b := step.1
    let results := step.2.1
    let fails := step.2.2
    let b := { b with progress := { b.progress with processed := b.progress.processed + 1 } }
    let (t, s) := now s
    let b := { b with updatedAt := t }
    let s := { s with batches := s.batches.set i b }
    let s := persistBatchState pf s
    let evs := evs ++ [Event.progress b.id b.progress]
    runRows pf proc i b rest results fails s evs

/-- `executeBatch(profile, inputRows)` from part_000.  Locates the first
scheduled batch for the profile in registry insertion order, throws
`'No scheduled batch for this profile.'` when none exists, otherwise marks
it running, processes the rows sequentially and finalizes the batch. -/
def executeBatch (pf : Bool) (proc : String → Row → Except String ProcResult)
    (profile : String) (inputRows : List Row) (s : EngineState) :
    Except String ((Nat × List ProcResult × List FailureRecord) × EngineState × List Event) :=
  match findScheduled profile s.batches with
  | none => .error "No scheduled batch for this profile."
  | some (i, b0) =>
    let b := { b0 with inputRows := inputRows,
                       progress := { b0.progress with total := inputRows.length },
                       status := .running }
    let (t, s) := now s
    let b := { b with updatedAt := t }
    let s := { s with batches := s.batches.set i b }
    let s := persistBatchState pf s
    let evs := [Event.batchStarted b.id]
    let out := runRows pf proc i b inputRows [] [] s evs
    let b := out.batch
    let s := out.state
    let evs := out.events
    let b := { b with failures := out.fails,
                      status := if out.fails.isEmpty then .completed else .failed }
    let (t2, s) := now s
    let b := { b with updatedAt := t2 }
    let (t3, s) := now s
    let summary : Summary :=
      { total := inputRows.length, succeeded := b.progress.succeeded,
        failed := b.progress.failed, completedAt := t3 }
    let b := { b with summary := some summary }
    let s := { s with batches := s.batches.set i b }
    let s := persistBatchState pf s
    let evs := evs ++ [Event.batchCompleted b.id summary]
    .ok ((b.id, out.results, b.failures), s, evs)

/-- `trackBatchProgress(batchId)`: read-only snapshot of a batch's progress. -/
def trackBatchProgress (batchId : Nat) (s : EngineState) : Option Progress :=
  (findById batchId s.batches).map (fun p => p.2.progress)

/-- `handleBatchCompletion(batchId, summary)` from part_000: if the batch
exists, unconditionally sets `status = 'completed'`, stores the summary,
persists and emits `batchFinalized`. -/
def handleBatchCompletion (pf : Bool) (batchId : Nat) (summary : Summary)
    (s : EngineState) : EngineState × List Event :=
  match findById batchId s.batches with
  | none => (s, [])
  | some (i, b) =>
    let (t, s) := now s
    let b := { b with status := .completed, summary := some summary, updatedAt := t }
    let s := { s with batches := s.batches.set i b }
    let s := persistBatchState pf s
    (s, [Event.batchFinalized batchId summary])

/-- `retryPolicy.maxAttempts || 3` (`0` is falsy in the source). -/
def resolveMaxAttempts (p : RetryPolicy) : Nat :=
  match p.maxAttempts with
  | none => 3
  | some n => if n = 0 then 3 else n

/-- The `while (attempt <= maxAttempts && !succeeded)` loop of
`retryFailedSubmissions` for one failure record.  `rproc` is the per-row
processing capability, indexed by the current `attempt` counter so that
distinct invocations may have distinct outcomes.  Returns either the
successful result or the final `(lastError, attempt)` pair. -/
def retryLoop (rproc : String → Row → Nat → Except String ProcResult)
    (profile : String) (row : Row) (maxAttempts attempt : Nat)
    (lastError : String) : ProcResult ⊕ (String × Nat) :=
  if h : attempt ≤ maxAttempts then
    match rproc profile row attempt with
    | .ok r => .inl r
    | .error e => retryLoop rproc profile row maxAttempts (attempt + 1) e
  else
    .inr (lastError, attempt)
termination_by maxAttempts + 1 - attempt

/-- `retryFailedSubmissions(failures, retryPolicy)` from part_000: replays
each failure record under the bounded-attempt policy, accumulating
`succeeded` results and exhausted records (with updated `error`/`attempt`)
in order. -/
def retryFailedSubmissions (rproc : String → Row → Nat → Except String ProcResult)
    (policy : RetryPolicy) :
    List FailureRecord → List ProcResult × List FailureRecord
  | [] => ([], [])
  | f :: fs =>
    let maxAttempts := resolveMaxAttempts policy
    let attempt0 := if f.attempt = 0 then 1 else f.attempt
    let one := retryLoop rproc f.profile f.row maxAttempts attempt0 f.error
    let rest := retryFailedSubmissions rproc policy fs
    match one with
    | .inl r => (r :: rest.1, rest.2)
    | .inr (e, a) => (rest.1, { f with error := e, attempt := a } :: rest.2)

end Engine0

namespace Engine3

/-- `persistBatchState` from part_003 (`automation-core`): identical body to
part_000 except that it writes to the relative path `./batch-state.json`
instead of a `__dirname`-resolved path; the persisted content is the same
serialized registry, so the model is the same. -/
def persistBatchState (pf : Bool) (s : EngineState) : EngineState :=
  if pf then s else { s with persisted := s.batches }

/-- `scheduleBatchRun(profile, batchConfig)` from part_003 (lines 697–717),
textually identical to part_000's. -/
def scheduleBatchRun (pf : Bool) (profile : String) (batchConfig : Config)
    (s : EngineState) : Nat × EngineState :=
  let batchId := s.nextId
  let s := { s with nextId := s.nextId + 1 }
  let (t1, s) := now s
  let (t2, s) := now s
  let batch : Batch :=
    { id := batchId, profile := profile, batchConfig := batchConfig,
      inputRows := [], status := .scheduled,
      progress := { total := 0, processed := 0, failed := 0, succeeded := 0 },
      createdAt := t1, updatedAt := t2, logs := [], summary := none,
      failures := [], retries := [] }
  let s := { s with batches := s.batches ++ [batch] }
  let s := persistBatchState pf s
  (batchId, s)

/-- The `find` over `[...batches.values()]` in part_003's `executeBatch`. -/
def findScheduled (profile : String) : List Batch → Option (Nat × Batch)
  | [] => none
  | b :: bs =>
    if b.profile = profile ∧ b.status = .scheduled then some (0, b)
    else match findScheduled profile bs with
         | some (i, b') => some (i + 1, b')
         | none => none

/-- `batches.get(batchId)` in part_003. -/
def findById (batchId : Nat) : List Batch → Option (Nat × Batch)
  | [] => none
  | b :: bs =>
    if b.id = batchId then some (0, b)
    else match findById batchId bs with
         | some (i, b') => some (i + 1, b')
         | none => none

/-- The per-row loop of part_003's `executeBatch` (lines 735–749); the only
textual difference from part_000 is that the per-row capability is named
`processFormForBatch` instead of `processForm`. -/
def runRows (pf : Bool) (proc : String → Row → Except String ProcResult)
    (i : Nat) (b : Batch) (rows : List Row) (results : List ProcResult)
    (fails : List FailureRecord) (s : EngineState) (evs : List Event) :
    Engine0.RowsOut :=
  match rows with
  | [] => ⟨b, results, fails, s, evs⟩
  | row :: rest =>
    let step : Batch × List ProcResult × List FailureRecord :=
      match proc b.profile row with
      | .ok r =>
        ({ b with progress := { b.progress with succeeded := b.progress.succeeded + 1 } },
         results ++ [r], fails)
      | .error e =>
        ({ b with progress := { b.progress with failed := b.progress.failed + 1 } },
         results,
         fails ++ [{ row := row, profile := b.profile, error := e, attempt := 1 }])
    let b := step.1
    let results := step.2.1
    let fails := step.2.2
    let b := { b with progress := { b.progress with processed := b.progress.processed + 1 } }
    let (t, s) := now s
    let b := { b with updatedAt := t }
    let s := { s with batches := s.batches.set i b }
    let s := persistBatchState pf s
    let evs := evs ++ [Event.progress b.id b.progress]
    runRows pf proc i b rest results fails s evs

/-- `executeBatch(profile, inputRows)` from part_003 (lines 719–763). -/
def executeBatch (pf : Bool) (proc : String → Row → Except String ProcResult)
    (profile : String) (inputRows : List Row) (s : EngineState) :
    Except String ((Nat × List ProcResult × List FailureRecord) × EngineState × List Event) :=
  match findScheduled profile s.batches with
  | none => .error "No scheduled batch for this profile."
  | some (i, b0) =>
    let b := { b0 with inputRows := inputRows,
                       progress := { b0.progress with total := inputRows.length },
                       status := .running }
    let (t, s) := now s
    let b := { b with updatedAt := t }
    let s := { s with batches := s.batches.set i b }
    let s := persistBatchState pf s
    let evs := [Event.batchStarted b.id]
    let out := runRows pf proc i b inputRows [] [] s evs
    let b := out.batch
    let s := out.state
    let evs := out.events
    let b := { b with failures := out.fails,
                      status := if out.fails.isEmpty then .completed else .failed }
    let (t2, s) := now s
    let b := { b with updatedAt := t2 }
    let (t3, s) := now s
    let summary : Summary :=
      { total := inputRows.length, succeeded := b.progress.succeeded,
        failed := b.progress.failed, completedAt := t3 }
    let b := { b with summary := some summary }
    let s := { s with batches := s.batches.set i b }
    let s := persistBatchState pf s
    let evs := evs ++ [Event.batchCompleted b.id summary]
    .ok ((b.id, out.results, b.failures), s, evs)

/-- `trackBatchProgress(batchId)` from part_003 (lines 798–800). -/
def trackBatchProgress (batchId : Nat) (s : EngineState) : Option Progress :=
  (findById batchId s.batches).map (fun p => p.2.progress)

/-- `handleBatchCompletion(batchId, summary)` from part_003 (lines 802–811). -/
def handleBatchCompletion (pf : Bool) (batchId : Nat) (summary : Summary)
    (s : EngineState) : EngineState × List Event :=
  match findById batchId s.batches with
  | none => (s, [])
  | some (i, b) =>
    let (t, s) := now s
    let b := { b with status := .completed, summary := some summary, updatedAt := t }
    let s := { s with batches := s.batches.set i b }
    let s := persistBatchState pf s
    (s, [Event.batchFinalized batchId summary])

/-- `retryPolicy.maxAttempts || 3` in part_003. -/
def resolveMaxAttempts (p : RetryPolicy) : Nat :=
  match p.maxAttempts with
  | none => 3
  | some n => if n = 0 then 3 else n

/-- The retry `while` loop of part_003's `retryFailedSubmissions`. -/
def retryLoop (rproc : String → Row → Nat → Except String ProcResult)
    (profile : String) (row : Row) (maxAttempts attempt : Nat)
    (lastError : String) : ProcResult ⊕ (String × Nat) :=
  if h : attempt ≤ maxAttempts then
    match rproc profile row attempt with
    | .ok r => .inl r
    | .error e => retryLoop rproc profile row maxAttempts (attempt + 1) e
  else
    .inr (lastError, attempt)
termination_by maxAttempts + 1 - attempt

/-- `retryFailedSubmissions(failures, retryPolicy)` from part_003 (lines
765–796), textually identical to part_000's up to the local variable name
`retryDelayMs`. -/
def retryFailedSubmissions (rproc : String → Row → Nat → Except String ProcResult)
    (policy : RetryPolicy) :
    List FailureRecord → List ProcResult × List FailureRecord
  | [] => ([], [])
  | f :: fs =>
    let maxAttempts := resolveMaxAttempts policy
    let attempt0 := if f.attempt = 0 then 1 else f.attempt
    let one := retryLoop rproc f.profile f.row maxAttempts attempt0 f.error
    let rest := retryFailedSubmissions rproc policy fs
    match one with
    | .inl r => (r :: rest.1, rest.2)
    | .inr (e, a) => (rest.1, { f with error := e, attempt := a } :: rest.2)

end Engine3

/-- One call against the batch/retry engine's public surface. -/
inductive Op where
  | schedule (profile : String) (cfg : Config)
  | execute (profile : String) (rows : List Row)
  | retry (failures : List FailureRecord) (policy : RetryPolicy)
  | track (batchId : Nat)
  | complete (batchId : Nat) (summary : Summary)

/-- The value returned to the caller by one engine call. -/
inductive OpResult where
  | scheduled (batchId : Nat)
  | executed (r : Except String (Nat × List ProcResult × List FailureRecord))
  | retried (succeeded : List ProcResult) (failures : List FailureRecord)
  | progressOf (p : Option Progress)
  | finalized
deriving Repr

namespace Engine0

/-- Interpreter for a sequence of engine calls against part_000's
implementation, threading the shared state and collecting per-call results
and emitted events. -/
def runOps (pf : Bool) (proc : String → Row → Except String ProcResult)
    (rproc : String → Row → Nat → Except String ProcResult) :
    List Op → EngineState → EngineState × List OpResult × List Event
  | [], s => (s, [], [])
  | op :: ops, s =>
    let step : EngineState × OpResult × List Event :=
      match op with
      | .schedule profile cfg =>
        let r := scheduleBatchRun pf profile cfg s
        (r.2, .scheduled r.1, [])
      | .execute profile rows =>
        match executeBatch pf proc profile rows s with
        | .error e => (s, .executed (.error e), [])
        | .ok (res, s', evs) => (s', .executed (.ok res), evs)
      | .retry failures policy =>
        let r := retryFailedSubmissions rproc policy failures
        (s, .retried r.1 r.2, [])
      | .track batchId => (s, .progressOf (trackBatchProgress batchId s), [])
      | .complete batchId summary =>
        let r := handleBatchCompletion pf batchId summary s
        (r.1, .finalized, r.2)
    let rest := runOps pf proc rproc ops step.1
    (rest.1, step.2.1 :: rest.2.1, step.2.2 ++ rest.2.2)

end Engine0

namespace Engine3

/-- Interpreter for the same call sequence against part_003's
implementation. -/
def runOps (pf : Bool) (proc : String → Row → Except String ProcResult)
    (rproc : String → Row → Nat → Except String ProcResult) :
    List Op → EngineState → EngineState × List OpResult × List Event
  | [], s => (s, [], [])
  | op :: ops, s =>
    let step : EngineState × OpResult × List Event :=
      match op with
      | .schedule profile cfg =>
        let r := scheduleBatchRun pf profile cfg s
        (r.2, .scheduled r.1, [])
      | .execute profile rows =>
        match executeBatch pf proc profile rows s with
        | .error e => (s, .executed (.error e), [])
        | .ok (res, s', evs) => (s', .executed (.ok res), evs)
      | .retry failures policy =>
        let r := retryFailedSubmissions rproc policy failures
        (s, .retried r.1 r.2, [])
      | .track batchId => (s, .progressOf (trackBatchProgress batchId s), [])
      | .complete batchId summary =>
        let r := handleBatchCompletion pf batchId summary s
        (r.1, .finalized, r.2)
    let rest := runOps pf proc rproc ops step.1
    (rest.1, step.2.1 :: rest.2.1, step.2.2 ++ rest.2.2)

end Engine3

namespace Detect

/-- The `FORM_IGNORE_CLASSES` constant of `form-detection-engine.js`. -/
def FORM_IGNORE_CLASSES : List String := ["hidden", "invisible", "display-none"]

/-- The computed style values `isHidden` reads from
`getComputedStyle(node)`. -/
structure NodeStyle where
  display : String
  visibility : String
  opacity : String
deriving DecidableEq, Repr

/-- One node on the `parentElement` chain walked by `isHidden`, carrying
exactly what the function reads: `nodeType`, the computed style reachable
through `ownerDocument.defaultView` (`none` when the node has no owning
document or the document has no view, i.e. the node is detached), the class
list, and the `aria-hidden` attribute (`none` when absent). -/
structure NodeInfo where
  nodeType : Nat
  style : Option NodeStyle
  classes : List String
  ariaHidden : Option String
deriving DecidableEq, Repr

/-- `isHidden(el)` from `form-detection-engine.js`, over the chain
`el :: el.parentElement :: …`.  The source reads
`node.ownerDocument.defaultView.getComputedStyle(node)` without any guard:
when the owning document or its view is absent the member access faults,
modelled as `.error "TypeError"`.  `nodeType !== 1` breaks the loop and the
function returns `false`. -/
def isHidden : List NodeInfo → Except String Bool
  | [] => .ok false
  | n :: rest =>
    if n.nodeType ≠ 1 then .ok false
    else
      match n.style with
      | none => .error "TypeError"
      | some st =>
        if st.display == "none" || st.visibility == "hidden" || st.opacity == "0" ||
            FORM_IGNORE_CLASSES.any (fun cls => n.classes.contains cls) ||
            (match n.ariaHidden with
             | some v => v != "false"
             | none => false) then
          .ok true
        else
          isHidden rest

/-- A detected field as consumed by `suggestMappings`:
`{ name, id, type, label, … }`. -/
structure Field where
  name : String
  id : String
  ftype : String
  label : String
deriving DecidableEq, Repr

/-- `rule.fieldMatch`: either an arbitrary predicate function, or a regular
expression whose `.test` is modelled as a string predicate applied to the
field's non-empty `name`/`id`/`label` (the source guards each with JS
truthiness, so empty strings are skipped). -/
inductive FieldMatch where
  | fn (p : Field → Bool)
  | pattern (test : String → Bool)

/-- `rule.typeMatch`: a single type string or an array of type strings. -/
inductive TypeMatch where
  | one (s : String)
  | many (l : List String)

/-- A mapping rule `{ fieldMatch, typeMatch, suggest }`; `fieldMatch` and
`typeMatch` may be absent. -/
structure MappingRule where
  fieldMatch : Option FieldMatch
  typeMatch : Option TypeMatch
  suggest : String

/-- The `matches` expression inside `suggestMappings`: the rule matches when
`fieldMatch` is present and satisfied, and `typeMatch` is absent/falsy or
includes the field's type.  A `typeMatch` equal to the empty string is falsy
in the source (`!rule.typeMatch`), hence passes. -/
def ruleMatches (rule : MappingRule) (field : Field) : Bool :=
  (match rule.fieldMatch with
   | none => false
   | some (.fn p) => p field
   | some (.pattern t) =>
     (field.name ≠ "" && t field.name) || (field.id ≠ "" && t field.id) ||
       (field.label ≠ "" && t field.label)) &&
  (match rule.typeMatch with
   | none => true
   | some (.one s) => s = "" || field.ftype == s
   | some (.many l) => l.contains field.ftype)

/-- One entry of the `suggestions` output array:
`{ field, mapping: string or null }`. -/
structure Suggestion where
  field : Field
  mapping : Option String

/-- The per-field body of `suggestMappings`: scan the rules in array order,
stop at the first match (`bestMatch = rule.suggest; break`); afterwards push
`mapping: bestMatch` when `bestMatch` is truthy, else `mapping: null`.  An
empty `suggest` string is falsy, so it yields a `null` mapping. -/
def bestMatchFor (rules : List MappingRule) (field : Field) : Option String :=
  match rules.find? (fun r => ruleMatches r field) with
  | none => none
  | some r => if r.suggest = "" then none else some r.suggest

/-- `suggestMappings(formFields, rules)` from `form-detection-engine.js`.
`rules = none` models a null/non-array rules argument. -/
def suggestMappings (formFields : List Field) (rules : Option (List MappingRule)) :
    List Suggestion :=
  formFields.map (fun field =>
    { field := field,
      mapping := match rules with
                 | none => none
                 | some rs => bestMatchFor rs field })

/-- A form control as gathered by `fallbackVisualDetection`'s selector
query, carrying the attributes the function reads.  `hidden` is the outcome
of `isHidden(el)` on the live node and `top`/`bottom` its bounding
rectangle edges (coordinates modelled as integers). -/
structure Control where
  name : String
  id : String
  etype : String
  tagName : String
  placeholder : String
  required : Bool
  autocomplete : String
  hidden : Bool
  disabled : Bool
  top : Int
  bottom : Int
deriving DecidableEq, Repr

/-- A field record of a synthetic descriptor. -/
structure SynthField where
  name : String
  id : String
  ftype : String
  label : String
  placeholder : String
  required : Bool
  autocomplete : String
deriving DecidableEq, Repr

/-- A synthetic FormDescriptor produced by `fallbackVisualDetection`:
`node: null` (no real container reference) is modelled by `node : Option
Unit`. -/
structure SynthForm where
  node : Option Unit
  id : String
  name : String
  action : String
  method : String
  synthetic : Bool
  fields : List SynthField
deriving DecidableEq, Repr

/-- `(el.type || el.tagName).toLowerCase()`. -/
def controlType (el : Control) : String :=
  (if el.etype = "" then el.tagName else el.etype).toLower

/-- The field object built from a cluster member. -/
def mkSynthField (el : Control) : SynthField :=
  { name := el.name, id := el.id, ftype := controlType el, label := "",
    placeholder := el.placeholder, required := el.required,
    autocomplete := el.autocomplete }

/-- One iteration of the greedy clustering pass of
`fallbackVisualDetection`: accumulator is `(clusterForms, cluster,
lastBottom)`. -/
def clusterStep (acc : List (List Control) × List Control × Option Int)
    (el : Control) : List (List Control) × List Control × Option Int :=
  let forms := acc.1
  let cluster := acc.2.1
  match acc.2.2 with
  | none => (forms, cluster ++ [el], some el.bottom)
  | some lastBottom =>
    if (el.top - lastBottom).natAbs < 60 then
      (forms, cluster ++ [el], some el.bottom)
    else if cluster.length ≥ 2 then
      (forms ++ [cluster], [el], some el.bottom)
    else
      (forms, [el], some el.bottom)

/-- `fallbackVisualDetection(domSnapshot)` from `form-detection-engine.js`.
The snapshot is modelled as the list of controls matched by
`FORM_FIELD_SELECTORS`, in document order.  The function filters to
visible/enabled controls, sorts ascending by rectangle top (the source's
`Array.prototype.sort` with a numeric comparator is stable; modelled by a
stable insertion sort), greedily clusters with a 60-unit proximity
threshold, keeps clusters of at least 2 controls (including the final
unflushed cluster) and maps each to a synthetic descriptor. -/
def fallbackVisualDetection (domSnapshot : List Control) : List SynthForm :=
  let controls := domSnapshot
  let visibleControls := controls.filter (fun el => !el.hidden && !el.disabled)
  if visibleControls.length = 0 then []
  else
    let sorted := List.insertionSort (fun a b => a.top ≤ b.top) visibleControls
    let folded := sorted.foldl clusterStep ([], [], none)
    let clusterForms :=
      if folded.2.1.length ≥ 2 then folded.1 ++ [folded.2.1] else folded.1
    clusterForms.map (fun clusterEls =>
      { node := none, id := "", name := "", action := "", method := "",
        synthetic := true, fields := clusterEls.map mkSynthField })

end Detect

/-! ## Equality of the two engine copies (helper lemmas) -/

theorem persistBatchState_eq : @Engine0.persistBatchState = @Engine3.persistBatchState := rfl

theorem scheduleBatchRun_eq : @Engine0.scheduleBatchRun = @Engine3.scheduleBatchRun := rfl

theorem findScheduled_eq : @Engine0.findScheduled = @Engine3.findScheduled := by
  funext p l
  induction l with
  | nil => rfl
  | cons b bs ih => simp [Engine0.findScheduled, Engine3.findScheduled, ih]

theorem findById_eq : @Engine0.findById = @Engine3.findById := by
  funext bid l
  induction l with
  | nil => rfl
  | cons b bs ih => simp [Engine0.findById, Engine3.findById, ih]

theorem retryLoop_eq : @Engine0.retryLoop = @Engine3.retryLoop := by
  funext rproc profile row maxAttempts attempt lastError
  induction attempt, lastError using Engine0.retryLoop.induct rproc profile row maxAttempts with
  | case1 attempt lastError hle r hr =>
    rw [Engine0.retryLoop.eq_def, Engine3.retryLoop.eq_def]
    simp [hle, hr]
  | case2 attempt lastError hle e he ih =>
    rw [Engine0.retryLoop.eq_def, Engine3.retryLoop.eq_def]
    simp [hle, he, ih]
  | case3 attempt lastError hgt =>
    rw [Engine0.retryLoop.eq_def, Engine3.retryLoop.eq_def]
    simp [hgt]

theorem runRows_eq : @Engine0.runRows = @Engine3.runRows := by
  funext pf proc i b rows results fails s evs
  induction rows generalizing b results fails s evs with
  | nil => rfl
  | cons row rest ih =>
    simp only [Engine0.runRows, Engine3.runRows, persistBatchState_eq, ih]

theorem executeBatch_eq : @Engine0.executeBatch = @Engine3.executeBatch := by
  funext pf proc profile rows s
  simp only [Engine0.executeBatch, Engine3.executeBatch, persistBatchState_eq,
    findScheduled_eq, runRows_eq]

theorem trackBatchProgress_eq : @Engine0.trackBatchProgress = @Engine3.trackBatchProgress := by
  funext bid s
  simp only [Engine0.trackBatchProgress, Engine3.trackBatchProgress, findById_eq]

theorem handleBatchCompletion_eq : @Engine0.handleBatchCompletion = @Engine3.handleBatchCompletion := by
  funext pf bid sum s
  simp only [Engine0.handleBatchCompletion, Engine3.handleBatchCompletion,
    persistBatchState_eq, findById_eq]

theorem resolveMaxAttempts_eq : @Engine0.resolveMaxAttempts = @Engine3.resolveMaxAttempts := rfl

theorem retryFailedSubmissions_eq :
    @Engine0.retryFailedSubmissions = @Engine3.retryFailedSubmissions := by
  funext rproc policy fs
  induction fs with
  | nil => rfl
  | cons f rest ih =>
    simp only [Engine0.retryFailedSubmissions, Engine3.retryFailedSubmissions,
      resolveMaxAttempts_eq, retryLoop_eq, ih]

/-- C10: the two copies of the batch/retry engine are behaviorally
equivalent: any sequence of `scheduleBatchRun` / `executeBatch` /
`retryFailedSubmissions` / `trackBatchProgress` / `handleBatchCompletion`
calls, run with the same inputs, the same per-row processor outcomes and
the same persistence availability from the same initial state, returns
equal per-call results, emits equal events, and leaves equal engine
states under part_000's implementation and part_003's near-duplicate. -/
theorem engines_behaviorally_equivalent :
    ∀ (pf : Bool) (proc : String → Row → Except String ProcResult)
      (rproc : String → Row → Nat → Except String ProcResult)
      (ops : List Op) (s : EngineState),
      Engine0.runOps pf proc rproc ops s = Engine3.runOps pf proc rproc ops s := by
  intro pf proc rproc ops s
  induction ops generalizing s with
  | nil => rfl
  | cons op ops ih =>
    simp only [Engine0.runOps, Engine3.runOps, scheduleBatchRun_eq, executeBatch_eq,
      retryFailedSubmissions_eq, trackBatchProgress_eq, handleBatchCompletion_eq, ih]

/-! ## Properties of part_000's engine -/

namespace Engine0

theorem persistBatchState_batches (pf : Bool) (s : EngineState) :
    (persistBatchState pf s).batches = s.batches := by
  unfold persistBatchState; split <;> rfl

theorem findScheduled_spec (profile : String) :
    ∀ (l : List Batch) (i : Nat) (b : Batch),
      findScheduled profile l = some (i, b) →
      l[i]? = some b ∧ b.profile = profile ∧ b.status = .scheduled ∧
        ∀ j c, j < i → l[j]? = some c →
          ¬(c.profile = profile ∧ c.status = .scheduled) := by
  intro l
  induction l with
  | nil => intro i b h; simp [findScheduled] at h
  | cons x xs ih =>
    intro i b h
    simp only [findScheduled] at h
    by_cases hx : x.profile = profile ∧ x.status = .scheduled
    · rw [if_pos hx] at h
      simp only [Option.some.injEq, Prod.mk.injEq] at h
      obtain ⟨hi, hb⟩ := h
      subst hi; subst hb
      refine ⟨by simp, hx.1, hx.2, ?_⟩
      intro j c hj
      omega
    · rw [if_neg hx] at h
      cases hm : findScheduled profile xs with
      | none => rw [hm] at h; simp at h
      | some p =>
        obtain ⟨i', b'⟩ := p
        rw [hm] at h
        simp only [Option.some.injEq, Prod.mk.injEq] at h
        obtain ⟨hi, hb⟩ := h
        subst hi; subst hb
        obtain ⟨h1, h2, h3, h4⟩ := ih i' b' hm
        refine ⟨by simpa using h1, h2, h3, ?_⟩
        intro j c hj hc
        cases j with
        | zero =>
          simp only [List.getElem?_cons_zero, Option.some.injEq] at hc
          subst hc; exact hx
        | succ k =>
          simp only [List.getElem?_cons_succ] at hc
          exact h4 k c (by omega) hc

theorem findById_spec (bid : Nat) :
    ∀ (l : List Batch) (i : Nat) (b : Batch),
      findById bid l = some (i, b) → l[i]? = some b ∧ b.id = bid := by
  intro l
  induction l with
  | nil => intro i b h; simp [findById] at h
  | cons x xs ih =>
    intro i b h
    simp only [findById] at h
    by_cases hx : x.id = bid
    · rw [if_pos hx] at h
      simp only [Option.some.injEq, Prod.mk.injEq] at h
      obtain ⟨hi, hb⟩ := h
      subst hi; subst hb
      exact ⟨by simp, hx⟩
    · rw [if_neg hx] at h
      cases hm : findById bid xs with
      | none => rw [hm] at h; simp at h
      | some p =>
        obtain ⟨i', b'⟩ := p
        rw [hm] at h
        simp only [Option.some.injEq, Prod.mk.injEq] at h
        obtain ⟨hi, hb⟩ := h
        subst hi; subst hb
        obtain ⟨h1, h2⟩ := ih i' b' hm
        exact ⟨by simpa using h1, h2⟩

theorem runRows_batch_id (pf : Bool) (proc : String → Row → Except String ProcResult)
    (i : Nat) :
    ∀ (rows : List Row) (b : Batch) (results : List ProcResult)
      (fails : List FailureRecord) (s : EngineState) (evs : List Event),
      (runRows pf proc i b rows results fails s evs).batch.id = b.id := by
  intro rows
  induction rows with
  | nil => intro b results fails s evs; rfl
  | cons row rest ih =>
    intro b results fails s evs
    cases hpr : proc b.profile row <;>
      simp only [runRows, hpr, now, persistBatchState, ih]

theorem runRows_batches_length (pf : Bool) (proc : String → Row → Except String ProcResult)
    (i : Nat) :
    ∀ (rows : List Row) (b : Batch) (results : List ProcResult)
      (fails : List FailureRecord) (s : EngineState) (evs : List Event),
      (runRows pf proc i b rows results fails s evs).state.batches.length =
        s.batches.length := by
  intro rows
  induction rows with
  | nil => intro b results fails s evs; rfl
  | cons row rest ih =>
    intro b results fails s evs
    cases hpr : proc b.profile row <;>
      simp only [runRows, hpr, now, ih, persistBatchState_batches, List.length_set]

theorem runRows_preserves_other (pf : Bool) (proc : String → Row → Except String ProcResult)
    (i : Nat) :
    ∀ (rows : List Row) (b : Batch) (results : List ProcResult)
      (fails : List FailureRecord) (s : EngineState) (evs : List Event) (j : Nat),
      j ≠ i →
      (runRows pf proc i b rows results fails s evs).state.batches[j]? =
        s.batches[j]? := by
  intro rows
  induction rows with
  | nil => intro b results fails s evs j hj; rfl
  | cons row rest ih =>
    intro b results fails s evs j hj
    cases hpr : proc b.profile row <;>
      · simp only [runRows, hpr, now]
        rw [ih _ _ _ _ _ j hj]
        by_cases hpf : pf <;>
          simp [persistBatchState, hpf, List.getElem?_set_ne (fun h => hj h.symm)]

theorem runRows_total (pf : Bool) (proc : String → Row → Except String ProcResult)
    (i : Nat) :
    ∀ (rows : List Row) (b : Batch) (results : List ProcResult)
      (fails : List FailureRecord) (s : EngineState) (evs : List Event),
      (runRows pf proc i b rows results fails s evs).batch.progress.total =
        b.progress.total := by
  intro rows
  induction rows with
  | nil => intro b results fails s evs; rfl
  | cons row rest ih =>
    intro b results fails s evs
    cases hpr : proc b.profile row <;>
      · simp only [runRows, hpr, now]
        rw [ih]

theorem runRows_processed (pf : Bool) (proc : String → Row → Except String ProcResult)
    (i : Nat) :
    ∀ (rows : List Row) (b : Batch) (results : List ProcResult)
      (fails : List FailureRecord) (s : EngineState) (evs : List Event),
      (runRows pf proc i b rows results fails s evs).batch.progress.processed =
        b.progress.processed + rows.length := by
  intro rows
  induction rows with
  | nil => intro b results fails s evs; simp [runRows]
  | cons row rest ih =>
    intro b results fails s evs
    cases hpr : proc b.profile row <;>
      · simp only [runRows, hpr, now]
        rw [ih]
        simp only [List.length_cons]
        omega

theorem runRows_succ_fail (pf : Bool) (proc : String → Row → Except String ProcResult)
    (i : Nat) :
    ∀ (rows : List Row) (b : Batch) (results : List ProcResult)
      (fails : List FailureRecord) (s : EngineState) (evs : List Event),
      (runRows pf proc i b rows results fails s evs).batch.progress.succeeded +
          (runRows pf proc i b rows results fails s evs).batch.progress.failed =
        b.progress.succeeded + b.progress.failed + rows.length := by
  intro rows
  induction rows with
  | nil => intro b results fails s evs; simp [runRows]
  | cons row rest ih =>
    intro b results fails s evs
    cases hpr : proc b.profile row <;>
      · simp only [runRows, hpr, now]
        rw [ih]
        simp only [List.length_cons]
        omega

theorem runRows_events (pf : Bool) (proc : String → Row → Except String ProcResult)
    (i : Nat) :
    ∀ (rows : List Row) (b : Batch) (results : List ProcResult)
      (fails : List FailureRecord) (s : EngineState) (evs : List Event),
      b.progress.processed = b.progress.succeeded + b.progress.failed →
      b.progress.processed + rows.length ≤ b.progress.total →
      ∀ ev ∈ (runRows pf proc i b rows results fails s evs).events,
        ev ∈ evs ∨ ∃ id p, ev = Event.progress id p ∧
          p.processed = p.succeeded + p.failed ∧ p.processed ≤ p.total := by
  intro rows
  induction rows with
  | nil =>
    intro b results fails s evs h1 h2 ev hev
    exact Or.inl hev
  | cons row rest ih =>
    intro b results fails s evs h1 h2
    simp only [List.length_cons] at h2
    cases hpr : proc b.profile row with
    | ok r =>
      simp only [runRows, hpr, now]
      intro ev hev
      have hrec := ih _ _ _ _ _ (by simp; omega) (by simp; omega) ev hev
      rcases hrec with hin | hsnap
      · rcases List.mem_append.mp hin with hl | hr
        · exact Or.inl hl
        · simp only [List.mem_singleton] at hr
          subst hr
          exact Or.inr ⟨b.id, _, rfl, by simp; omega, by simp; omega⟩
      · exact Or.inr hsnap
    | error e =>
      simp only [runRows, hpr, now]
      intro ev hev
      have hrec := ih _ _ _ _ _ (by simp; omega) (by simp; omega) ev hev
      rcases hrec with hin | hsnap
      · rcases List.mem_append.mp hin with hl | hr
        · exact Or.inl hl
        · simp only [List.mem_singleton] at hr
          subst hr
          exact Or.inr ⟨b.id, _, rfl, by simp; omega, by simp; omega⟩
      · exact Or.inr hsnap

end Engine0

/-- C1: batch accounting is complete and internally consistent.  For every
engine state holding a scheduled batch for `profile` (located by the
engine's own lookup, with the zeroed progress counters `scheduleBatchRun`
gives it) and every input row list, `executeBatch` resolves successfully;
afterwards the batch's `progress.processed` and `progress.total` both equal
`inputRows.length` and `progress.succeeded + progress.failed` equals
`progress.processed`; and every `progress` snapshot emitted during the run
satisfies `processed = succeeded + failed` and `processed ≤ total`. -/
theorem executeBatch_batch_accounting
    (pf : Bool) (proc : String → Row → Except String ProcResult)
    (profile : String) (rows : List Row) (s : EngineState)
    (i : Nat) (b0 : Batch)
    (hfind : Engine0.findScheduled profile s.batches = some (i, b0))
    (hp : b0.progress.processed = 0) (hs : b0.progress.succeeded = 0)
    (hf : b0.progress.failed = 0) :
    ∃ bid results fails st evs,
      Engine0.executeBatch pf proc profile rows s = .ok ((bid, results, fails), st, evs) ∧
      bid = b0.id ∧
      (st.batches[i]?).isSome = true ∧
      (∀ bf, st.batches[i]? = some bf →
        bf.progress.total = rows.length ∧
        bf.progress.processed = rows.length ∧
        bf.progress.succeeded + bf.progress.failed = bf.progress.processed) ∧
      ∀ id p, Event.progress id p ∈ evs →
        p.processed = p.succeeded + p.failed ∧ p.processed ≤ p.total := by
  have hlen : i < s.batches.length :=
    (List.getElem?_eq_some.mp (Engine0.findScheduled_spec profile s.batches i b0 hfind).1).1
  simp only [Engine0.executeBatch, hfind, now]
  refine ⟨_, _, _, _, _, rfl, ?_, ?_, ?_, ?_⟩
  · rw [Engine0.runRows_batch_id]
  · rw [Engine0.persistBatchState_batches, List.getElem?_set_eq_of_lt]
    · rfl
    · rw [Engine0.runRows_batches_length, Engine0.persistBatchState_batches,
        List.length_set]
      exact hlen
  · intro bf hbf
    rw [Engine0.persistBatchState_batches, List.getElem?_set_eq_of_lt] at hbf
    · simp only [Option.some.injEq] at hbf
      subst hbf
      refine ⟨?_, ?_, ?_⟩
      · simp only [Engine0.runRows_total]
      · simp only [Engine0.runRows_processed]
        simp [hp]
      · simp only [Engine0.runRows_succ_fail, Engine0.runRows_processed, hp, hs, hf]
    · rw [Engine0.runRows_batches_length, Engine0.persistBatchState_batches,
        List.length_set]
      exact hlen
  · intro id p hmem
    rcases List.mem_append.mp hmem with hin | hlast
    · have hres := Engine0.runRows_events pf proc i rows _ _ _ _ _
        (by simp [hp, hs, hf]) (by simp [hp]) (Event.progress id p) hin
      rcases hres with hstart | ⟨id', p', heq, hc1, hc2⟩
      · simp at hstart
      · simp only [Event.progress.injEq] at heq
        obtain ⟨_, hpp⟩ := heq
        subst hpp
        exact ⟨hc1, hc2⟩
    · simp at hlast

/-- A concrete engine state holding exactly one freshly scheduled batch for
profile `"p"`, produced by the engine's own `scheduleBatchRun`. -/
def sampleScheduledState : EngineState :=
  (Engine0.scheduleBatchRun false "p" "cfg" ⟨[], 0, 0, []⟩).2

/-- The batch record that `scheduleBatchRun` places in
`sampleScheduledState`. -/
def sampleScheduledBatch : Batch :=
  { id := 0, profile := "p", batchConfig := "cfg", inputRows := [],
    status := .scheduled,
    progress := { total := 0, processed := 0, failed := 0, succeeded := 0 },
    createdAt := 0, updatedAt := 1, logs := [], summary := none,
    failures := [], retries := [] }

/-- Witness for `executeBatch_batch_accounting` at a concrete scheduled
state and a two-row input. -/
theorem executeBatch_batch_accounting_witness :
    ∃ bid results fails st evs,
      Engine0.executeBatch false (fun pr row => .ok ⟨pr, row, "success"⟩) "p" ["a", "b"]
          sampleScheduledState = .ok ((bid, results, fails), st, evs) ∧
      bid = sampleScheduledBatch.id ∧
      (st.batches[0]?).isSome = true ∧
      (∀ bf, st.batches[0]? = some bf →
        bf.progress.total = ["a", "b"].length ∧
        bf.progress.processed = ["a", "b"].length ∧
        bf.progress.succeeded + bf.progress.failed = bf.progress.processed) ∧
      ∀ id p, Event.progress id p ∈ evs →
        p.processed = p.succeeded + p.failed ∧ p.processed ≤ p.total :=
  executeBatch_batch_accounting false (fun pr row => .ok ⟨pr, row, "success"⟩) "p"
    ["a", "b"] sampleScheduledState 0 sampleScheduledBatch (by decide) rfl rfl rfl

/-- The registry state left behind by an `executeBatch` call: on the error
path the source throws before mutating anything, so the state is the
caller's unchanged state. -/
def stateAfterExecute (pf : Bool) (proc : String → Row → Except String ProcResult)
    (profile : String) (rows : List Row) (s : EngineState) : EngineState :=
  match Engine0.executeBatch pf proc profile rows s with
  | .error _ => s
  | .ok (_, st, _) => st

/-- C2 (amended): status transitions and terminal states.  `scheduleBatchRun`
leaves every existing registry entry untouched; `executeBatch` never touches
a batch whose status is terminal (`completed` or `failed`) — it only mutates
the scheduled batch it located; `retryFailedSubmissions` and
`trackBatchProgress` take no registry state at all (their types show it);
but `handleBatchCompletion` unconditionally sets the status of any existing
batch — including one in the terminal state `failed` — to `completed`. -/
theorem terminal_status_behavior :
    (∀ (pf : Bool) (profile : String) (cfg : Config) (s : EngineState)
        (j : Nat) (b : Batch),
        s.batches[j]? = some b →
        ((Engine0.scheduleBatchRun pf profile cfg s).2).batches[j]? = some b) ∧
    (∀ (pf : Bool) (proc : String → Row → Except String ProcResult)
        (profile : String) (rows : List Row) (s : EngineState) (j : Nat) (b : Batch),
        s.batches[j]? = some b →
        (b.status = .completed ∨ b.status = .failed) →
        (stateAfterExecute pf proc profile rows s).batches[j]? = some b) ∧
    (∀ (pf : Bool) (bid : Nat) (sum : Summary) (s : EngineState) (i : Nat) (b : Batch),
        Engine0.findById bid s.batches = some (i, b) →
        (((Engine0.handleBatchCompletion pf bid sum s).1).batches[i]?).map Batch.status =
          some .completed) := by
  refine ⟨?_, ?_, ?_⟩
  · intro pf profile cfg s j b hb
    have hj : j < s.batches.length := (List.getElem?_eq_some.mp hb).1
    simp only [Engine0.scheduleBatchRun, now, Engine0.persistBatchState_batches]
    rw [List.getElem?_append_left hj]
    exact hb
  · intro pf proc profile rows s j b hb hterm
    cases hfind : Engine0.findScheduled profile s.batches with
    | none => simp only [stateAfterExecute, Engine0.executeBatch, hfind]; exact hb
    | some p =>
      obtain ⟨i, b0⟩ := p
      have hspec := Engine0.findScheduled_spec profile s.batches i b0 hfind
      have hji : j ≠ i := by
        intro hji
        subst hji
        rw [hb] at hspec
        have hb0 : b = b0 := by
          simpa using hspec.1
        subst hb0
        rcases hterm with h | h <;> rw [h] at hspec <;> simp at hspec
      simp only [stateAfterExecute, Engine0.executeBatch, hfind, now,
        Engine0.persistBatchState_batches]
      rw [List.getElem?_set_ne (fun h => hji h.symm)]
      rw [Engine0.runRows_preserves_other pf proc i rows _ _ _ _ _ j hji]
      rw [Engine0.persistBatchState_batches]
      rw [List.getElem?_set_ne (fun h => hji h.symm)]
      exact hb
  · intro pf bid sum s i b hfind
    have hspec := Engine0.findById_spec bid s.batches i b hfind
    have hi : i < s.batches.length := (List.getElem?_eq_some.mp hspec.1).1
    simp only [Engine0.handleBatchCompletion, hfind, now,
      Engine0.persistBatchState_batches]
    rw [List.getElem?_set_eq_of_lt _ hi]
    rfl

/-- C2 counterexample: a concrete run in which a batch reaches the terminal
state `failed` (one row, always-failing processor) and a subsequent
`handleBatchCompletion` call moves it out of that terminal state to
`completed`, refuting the claim that no operation leaves a terminal
state. -/
theorem handleBatchCompletion_terminal_counterexample :
    ((Engine0.executeBatch false (fun _ _ => .error "boom") "p" ["r"]
        (Engine0.scheduleBatchRun false "p" "cfg" ⟨[], 0, 0, []⟩).2).toOption.map
      (fun r =>
        (r.2.1.batches.map Batch.status,
         (Engine0.handleBatchCompletion false 0 ⟨1, 0, 1, 99⟩ r.2.1).1.batches.map
           Batch.status))) =
      some ([Status.failed], [Status.completed]) := by decide

/-- A concrete engine state holding a single batch already in the terminal
state `failed`. -/
def sampleFailedState : EngineState :=
  ⟨[{ id := 5, profile := "q", batchConfig := "c", inputRows := ["r"],
      status := .failed,
      progress := { total := 1, processed := 1, failed := 1, succeeded := 0 },
      createdAt := 0, updatedAt := 1, logs := [], summary := none,
      failures := [⟨"r", "q", "boom", 1⟩], retries := [] }], 6, 2, []⟩

/-- The failed batch stored in `sampleFailedState`. -/
def sampleFailedBatch : Batch :=
  { id := 5, profile := "q", batchConfig := "c", inputRows := ["r"],
    status := .failed,
    progress := { total := 1, processed := 1, failed := 1, succeeded := 0 },
    createdAt := 0, updatedAt := 1, logs := [], summary := none,
    failures := [⟨"r", "q", "boom", 1⟩], retries := [] }

/-- Witness for `terminal_status_behavior` at concrete inputs. -/
theorem terminal_status_behavior_witness :
    ((Engine0.scheduleBatchRun false "q" "c" sampleFailedState).2).batches[0]? =
        some sampleFailedBatch ∧
    (stateAfterExecute false (fun pr row => .ok ⟨pr, row, "s"⟩) "q" []
        sampleFailedState).batches[0]? = some sampleFailedBatch ∧
    (((Engine0.handleBatchCompletion false 5 ⟨0, 0, 0, 0⟩ sampleFailedState).1).batches[0]?).map
        Batch.status = some .completed :=
  ⟨terminal_status_behavior.1 false "q" "c" sampleFailedState 0 sampleFailedBatch (by decide),
   terminal_status_behavior.2.1 false (fun pr row => .ok ⟨pr, row, "s"⟩) "q" []
     sampleFailedState 0 sampleFailedBatch (by decide) (Or.inr (by decide)),
   terminal_status_behavior.2.2 false 5 ⟨0, 0, 0, 0⟩ sampleFailedState 0
     sampleFailedBatch (by decide)⟩

/-- C4 (amended): `executeBatch` locates the **earliest** scheduled batch for
the profile — the first match in registry insertion order, i.e. the one
created first, with no earlier entry both scheduled and owned by the
profile — and executes it (the returned `batchId` is that batch's id).
When no scheduled batch exists for the profile it fails with the
`'No scheduled batch for this profile.'` precondition error before
processing any row. -/
theorem executeBatch_earliest_scheduled :
    (∀ (pf : Bool) (proc : String → Row → Except String ProcResult)
        (profile : String) (rows : List Row) (s : EngineState),
        Engine0.findScheduled profile s.batches = none →
        Engine0.executeBatch pf proc profile rows s =
          .error "No scheduled batch for this profile.") ∧
    (∀ (pf : Bool) (proc : String → Row → Except String ProcResult)
        (profile : String) (rows : List Row) (s : EngineState)
        (i : Nat) (b0 : Batch),
        Engine0.findScheduled profile s.batches = some (i, b0) →
        s.batches[i]? = some b0 ∧ b0.profile = profile ∧ b0.status = .scheduled ∧
        (∀ j c, j < i → s.batches[j]? = some c →
          ¬(c.profile = profile ∧ c.status = .scheduled)) ∧
        (Engine0.executeBatch pf proc profile rows s).isOk = true ∧
        (Engine0.executeBatch pf proc profile rows s).toOption.map
          (fun r => r.1.1) = some b0.id) := by
  constructor
  · intro pf proc profile rows s hnone
    simp only [Engine0.executeBatch, hnone]
  · intro pf proc profile rows s i b0 hfind
    obtain ⟨h1, h2, h3, h4⟩ := Engine0.findScheduled_spec profile s.batches i b0 hfind
    refine ⟨h1, h2, h3, h4, ?_, ?_⟩
    · simp only [Engine0.executeBatch, hfind, now]
      rfl
    · simp only [Engine0.executeBatch, hfind, now, Except.toOption, Option.map,
        Engine0.runRows_batch_id]

/-- A concrete registry with two scheduled batches for profile `"p"`, the
first created at tick 0 and the second at tick 2. -/
def twoScheduledState : EngineState :=
  (Engine0.scheduleBatchRun false "p" "c"
    (Engine0.scheduleBatchRun false "p" "c" ⟨[], 0, 0, []⟩).2).2

/-- C4 counterexample: with two scheduled batches for the same profile,
`executeBatch` runs the batch with id 0 — the one created **first**
(`createdAt` 0, versus 2 for the batch with id 1) — not the most recently
scheduled one, refuting the claim at this concrete input. -/
theorem executeBatch_most_recent_counterexample :
    ((Engine0.executeBatch false (fun pr row => .ok ⟨pr, row, "success"⟩) "p" ["r"]
        twoScheduledState).toOption.map (fun r => r.1.1) = some 0) ∧
    twoScheduledState.batches.map Batch.id = [0, 1] ∧
    twoScheduledState.batches.map Batch.status = [.scheduled, .scheduled] ∧
    twoScheduledState.batches.map Batch.profile = ["p", "p"] ∧
    twoScheduledState.batches.map Batch.createdAt = [0, 2] := by decide

/-- The first-created batch of `twoScheduledState`. -/
def twoScheduledBatch0 : Batch :=
  { id := 0, profile := "p", batchConfig := "c", inputRows := [],
    status := .scheduled,
    progress := { total := 0, processed := 0, failed := 0, succeeded := 0 },
    createdAt := 0, updatedAt := 1, logs := [], summary := none,
    failures := [], retries := [] }

/-- Witness for `executeBatch_earliest_scheduled` at concrete inputs: the
error branch for a profile with no scheduled batch, and the first-match
branch on `twoScheduledState`. -/
theorem executeBatch_earliest_scheduled_witness :
    (Engine0.executeBatch false (fun pr row => .ok ⟨pr, row, "success"⟩) "zz" ["r"]
        twoScheduledState = .error "No scheduled batch for this profile.") ∧
    (twoScheduledState.batches[0]? = some twoScheduledBatch0 ∧
      twoScheduledBatch0.profile = "p" ∧ twoScheduledBatch0.status = .scheduled ∧
      (∀ j c, j < 0 → twoScheduledState.batches[j]? = some c →
        ¬(c.profile = "p" ∧ c.status = .scheduled)) ∧
      (Engine0.executeBatch false (fun pr row => .ok ⟨pr, row, "success"⟩) "p" ["r"]
          twoScheduledState).isOk = true ∧
      (Engine0.executeBatch false (fun pr row => .ok ⟨pr, row, "success"⟩) "p" ["r"]
          twoScheduledState).toOption.map (fun r => r.1.1) =
        some twoScheduledBatch0.id) :=
  ⟨executeBatch_earliest_scheduled.1 false (fun pr row => .ok ⟨pr, row, "success"⟩)
      "zz" ["r"] twoScheduledState (by decide),
   executeBatch_earliest_scheduled.2 false (fun pr row => .ok ⟨pr, row, "success"⟩)
      "p" ["r"] twoScheduledState 0 twoScheduledBatch0 (by decide)⟩

/-- C9: `scheduleBatchRun` does **not** surface persistence failures.  Even
when the underlying persistence is unavailable (every write throws), the
call completes normally — it has no error outcome at all — handing back the
fresh `batchId` and leaving the new scheduled batch in memory only: the
durable copy of the registry is unchanged, so the scheduled batch's
persisted state is silently lost (`persistBatchState` catches the write
error and merely logs it).  This contradicts the claim that the failure is
raised to the caller. -/
theorem scheduleBatchRun_swallows_persist_failure :
    ∀ (profile : String) (cfg : Config) (s : EngineState),
      (Engine0.scheduleBatchRun true profile cfg s).1 = s.nextId ∧
      (Engine0.scheduleBatchRun true profile cfg s).2.persisted = s.persisted ∧
      (Engine0.scheduleBatchRun true profile cfg s).2.batches =
        s.batches ++
          [{ id := s.nextId, profile := profile, batchConfig := cfg,
             inputRows := [], status := .scheduled,
             progress := { total := 0, processed := 0, failed := 0, succeeded := 0 },
             createdAt := s.tick, updatedAt := s.tick + 1, logs := [],
             summary := none, failures := [], retries := [] }] := by
  intro profile cfg s
  refine ⟨rfl, ?_, ?_⟩ <;> simp [Engine0.scheduleBatchRun, now, Engine0.persistBatchState]

theorem retryFailedSubmissions_append
    (rproc : String → Row → Nat → Except String ProcResult) (policy : RetryPolicy) :
    ∀ (fs1 fs2 : List FailureRecord),
      Engine0.retryFailedSubmissions rproc policy (fs1 ++ fs2) =
        ((Engine0.retryFailedSubmissions rproc policy fs1).1 ++
           (Engine0.retryFailedSubmissions rproc policy fs2).1,
         (Engine0.retryFailedSubmissions rproc policy fs1).2 ++
           (Engine0.retryFailedSubmissions rproc policy fs2).2) := by
  intro fs1
  induction fs1 with
  | nil => intro fs2; simp [Engine0.retryFailedSubmissions]
  | cons f fs ih =>
    intro fs2
    simp only [List.cons_append, Engine0.retryFailedSubmissions, ih]
    cases Engine0.retryLoop rproc f.profile f.row
        (Engine0.resolveMaxAttempts policy)
        (if f.attempt = 0 then 1 else f.attempt) f.error <;> simp [ih]

theorem retry_single (rproc : String → Row → Nat → Except String ProcResult)
    (policy : RetryPolicy) (f : FailureRecord) (e1 e2 e3 : String)
    (hmax : policy.maxAttempts = some 3) (hatt : f.attempt = 1)
    (h1 : rproc f.profile f.row 1 = .error e1)
    (h2 : rproc f.profile f.row 2 = .error e2)
    (h3 : rproc f.profile f.row 3 = .error e3) :
    Engine0.retryFailedSubmissions rproc policy [f] =
      ([], [{ f with error := e3, attempt := 4 }]) := by
  have hm : Engine0.resolveMaxAttempts policy = 3 := by
    simp [Engine0.resolveMaxAttempts, hmax]
  have l1 : Engine0.retryLoop rproc f.profile f.row 3 4 e3 = .inr (e3, 4) := by
    rw [Engine0.retryLoop.eq_def]
    norm_num
  have l2 : Engine0.retryLoop rproc f.profile f.row 3 3 e2 = .inr (e3, 4) := by
    rw [Engine0.retryLoop.eq_def]
    simp [h3, l1]
  have l3 : Engine0.retryLoop rproc f.profile f.row 3 2 e1 = .inr (e3, 4) := by
    rw [Engine0.retryLoop.eq_def]
    simp [h2, l2]
  have l4 : Engine0.retryLoop rproc f.profile f.row 3 1 f.error = .inr (e3, 4) := by
    rw [Engine0.retryLoop.eq_def]
    simp [h1, l3]
  simp [Engine0.retryFailedSubmissions, hm, hatt, l4]

/-- C3: retry exhaustion.  With `maxAttempts = 3` and a FailureRecord whose
`attempt` is 1 and whose per-row processor fails on attempts 1, 2 and 3
(every invocation the loop makes), `retryFailedSubmissions` — run on any
failure list containing that record — returns it in the output `failures`
list with `attempt = 4` and the last error message (`e3`, from the third
invocation), contributes nothing for it to `succeeded`, and does not drop
it: the output lists are exactly those of the surrounding records with the
exhausted record spliced into `failures` in order. -/
theorem retryFailedSubmissions_exhaustion
    (rproc : String → Row → Nat → Except String ProcResult) (policy : RetryPolicy)
    (fs1 fs2 : List FailureRecord) (f : FailureRecord) (e1 e2 e3 : String)
    (hmax : policy.maxAttempts = some 3) (hatt : f.attempt = 1)
    (h1 : rproc f.profile f.row 1 = .error e1)
    (h2 : rproc f.profile f.row 2 = .error e2)
    (h3 : rproc f.profile f.row 3 = .error e3) :
    (Engine0.retryFailedSubmissions rproc policy (fs1 ++ f :: fs2)).2 =
      (Engine0.retryFailedSubmissions rproc policy fs1).2 ++
        { f with error := e3, attempt := 4 } ::
          (Engine0.retryFailedSubmissions rproc policy fs2).2 ∧
    (Engine0.retryFailedSubmissions rproc policy (fs1 ++ f :: fs2)).1 =
      (Engine0.retryFailedSubmissions rproc policy fs1).1 ++
        (Engine0.retryFailedSubmissions rproc policy fs2).1 := by
  have hsingle := retry_single rproc policy f e1 e2 e3 hmax hatt h1 h2 h3
  have hsplit : fs1 ++ f :: fs2 = fs1 ++ ([f] ++ fs2) := by simp
  rw [hsplit, retryFailedSubmissions_append, retryFailedSubmissions_append, hsingle]
  simp

/-- A processor that fails on every invocation, naming the attempt in the
error message. -/
def alwaysFailingProc : String → Row → Nat → Except String ProcResult :=
  fun _ _ n => .error (Nat.repr n)

/-- The concrete exhausted record used by the retry witnesses. -/
def sampleRetryRecord : FailureRecord :=
  { row := "r1", profile := "p", error := "boom", attempt := 1 }

/-- Witness for `retryFailedSubmissions_exhaustion` on a single-record
failure list and a concrete always-failing processor. -/
theorem retryFailedSubmissions_exhaustion_witness :
    (Engine0.retryFailedSubmissions alwaysFailingProc ⟨some 3, some 1000⟩
        ([] ++ sampleRetryRecord :: [])).2 =
      (Engine0.retryFailedSubmissions alwaysFailingProc ⟨some 3, some 1000⟩ []).2 ++
        { sampleRetryRecord with error := "3", attempt := 4 } ::
          (Engine0.retryFailedSubmissions alwaysFailingProc ⟨some 3, some 1000⟩ []).2 ∧
    (Engine0.retryFailedSubmissions alwaysFailingProc ⟨some 3, some 1000⟩
        ([] ++ sampleRetryRecord :: [])).1 =
      (Engine0.retryFailedSubmissions alwaysFailingProc ⟨some 3, some 1000⟩ []).1 ++
        (Engine0.retryFailedSubmissions alwaysFailingProc ⟨some 3, some 1000⟩ []).1 :=
  retryFailedSubmissions_exhaustion alwaysFailingProc ⟨some 3, some 1000⟩ [] []
    sampleRetryRecord "1" "2" "3" rfl rfl rfl rfl rfl

theorem find?_first_of_match {α : Type} (p : α → Bool) :
    ∀ (l : List α) (i : Nat) (a : α),
      l[i]? = some a → p a = true →
      (∀ j b, j < i → l[j]? = some b → p b = false) →
      l.find? p = some a := by
  intro l
  induction l with
  | nil => intro i a h _ _; simp at h
  | cons x xs ih =>
    intro i a h hp hfirst
    cases i with
    | zero =>
      simp only [List.getElem?_cons_zero, Option.some.injEq] at h
      subst h
      exact List.find?_cons_of_pos xs hp
    | succ k =>
      have hx : p x = false := hfirst 0 x (Nat.succ_pos k) (by simp)
      simp only [List.getElem?_cons_succ] at h
      rw [List.find?_cons_of_neg xs (by simp [hx])]
      exact ih k a h hp
        (fun j b hj hb => hfirst (j + 1) b (by omega) (by simpa using hb))

/-- C5 (amended): first-match-wins with the source's truthiness caveat.
`suggestMappings` is total — one suggestion per field, in input order — and
for a field matched by the rule at index `i` while no earlier rule matches,
the returned mapping is determined by that rule alone: it equals
`some ri.suggest` when `ri.suggest` is a non-empty string, and `none` when
`ri.suggest` is the empty string (the source checks `if (bestMatch)`, and
an empty string is falsy in JavaScript, so an empty `suggest` value is
reported as a null mapping rather than as itself). -/
theorem suggestMappings_first_match_wins
    (fields1 fields2 : List Detect.Field) (field : Detect.Field)
    (rules : List Detect.MappingRule) (i : Nat) (ri : Detect.MappingRule)
    (hi : rules[i]? = some ri) (hm : Detect.ruleMatches ri field = true)
    (hfirst : ∀ j r, j < i → rules[j]? = some r →
      Detect.ruleMatches r field = false) :
    (Detect.suggestMappings (fields1 ++ field :: fields2) (some rules)).map
        (fun sg => sg.field) = fields1 ++ field :: fields2 ∧
    (Detect.suggestMappings (fields1 ++ field :: fields2) (some rules))[fields1.length]? =
      some { field := field,
             mapping := if ri.suggest = "" then none else some ri.suggest } := by
  constructor
  · have htot : ∀ (l : List Detect.Field),
        (Detect.suggestMappings l (some rules)).map (fun sg => sg.field) = l := by
      intro l
      induction l with
      | nil => rfl
      | cons x xs ih =>
        simp only [Detect.suggestMappings, List.map_cons] at ih ⊢
        simp [ih]
    exact htot _
  · have hfind : rules.find? (fun r => Detect.ruleMatches r field) = some ri :=
      find?_first_of_match _ rules i ri hi hm hfirst
    rw [Detect.suggestMappings, List.getElem?_map,
      List.getElem?_append_right (Nat.le_refl _), Nat.sub_self,
      List.getElem?_cons_zero]
    simp [Detect.bestMatchFor, hfind]

/-- A concrete field used by the mapping counterexample and witnesses. -/
def cexField : Detect.Field :=
  { name := "email", id := "", ftype := "text", label := "" }

/-- A rule matching every field whose `suggest` value is the empty string. -/
def cexRuleEmpty : Detect.MappingRule :=
  { fieldMatch := some (.fn (fun _ => true)), typeMatch := none, suggest := "" }

/-- A rule matching every field with `suggest := "userEmail"`. -/
def cexRuleUser : Detect.MappingRule :=
  { fieldMatch := some (.fn (fun _ => true)), typeMatch := none, suggest := "userEmail" }

/-- C5 counterexample: both rules match the field and the earlier matching
rule has `suggest = ""`; the claim demands that the returned mapping equal
that suggest value, but the source's `if (bestMatch)` truthiness test turns
the falsy empty string into a null mapping, so the mapping is `none`, not
`some ""` (and not the later rule's value either). -/
theorem suggestMappings_empty_suggest_counterexample :
    Detect.ruleMatches cexRuleEmpty cexField = true ∧
    Detect.ruleMatches cexRuleUser cexField = true ∧
    (Detect.suggestMappings [cexField] (some [cexRuleEmpty, cexRuleUser])).map
        (fun sg => sg.mapping) = [none] ∧
    (some cexRuleEmpty.suggest ≠ (none : Option String)) := by
  refine ⟨rfl, rfl, rfl, by decide⟩

/-- Witness for `suggestMappings_first_match_wins`: the earlier of two
matching rules (both matching `cexField`) determines the mapping. -/
theorem suggestMappings_first_match_wins_witness :
    (Detect.suggestMappings ([] ++ cexField :: []) (some [cexRuleUser, cexRuleEmpty])).map
        (fun sg => sg.field) = [] ++ cexField :: [] ∧
    (Detect.suggestMappings ([] ++ cexField :: [])
        (some [cexRuleUser, cexRuleEmpty]))[List.length ([] : List Detect.Field)]? =
      some { field := cexField,
             mapping := if cexRuleUser.suggest = "" then none
                        else some cexRuleUser.suggest } :=
  suggestMappings_first_match_wins [] [] cexField [cexRuleUser, cexRuleEmpty] 0
    cexRuleUser rfl rfl (fun j r hj _ => absurd hj (by omega))

/-- A visible, enabled text control at vertical position `t`–`bt`. -/
def ctrlAt (nm : String) (t bt : Int) : Detect.Control :=
  { name := nm, id := "", etype := "text", tagName := "INPUT", placeholder := "",
    required := false, autocomplete := "", hidden := false, disabled := false,
    top := t, bottom := bt }

/-- C6: the synthetic descriptors produced by `fallbackVisualDetection`
carry no generated ids or names at all.  On a snapshot yielding two
synthetic forms (two clusters of two controls each, 195 units apart), both
descriptors come back with `id = ""` and `name = ""` — identical, hence not
unique and not generated — even though `synthetic = true` and the absent
container reference (`node = none`) do hold.  This is the behaviour the
spec's "must carry a generated unique id/name" requirement forbids. -/
theorem fallbackVisualDetection_ids_not_generated :
    (Detect.fallbackVisualDetection
        [ctrlAt "a" 0 5, ctrlAt "b" 10 15, ctrlAt "c" 200 205, ctrlAt "d" 210 215]).map
      (fun f => (f.id, f.name, f.synthetic, f.node)) =
    [("", "", true, none), ("", "", true, none)] := by decide

theorem clusterStep_forms_min_size :
    ∀ (els : List Detect.Control)
      (acc : List (List Detect.Control) × List Detect.Control × Option Int),
      (∀ c ∈ acc.1, 2 ≤ c.length) →
      ∀ c ∈ (els.foldl Detect.clusterStep acc).1, 2 ≤ c.length := by
  intro els
  induction els with
  | nil => intro acc h c hc; exact h c hc
  | cons el rest ih =>
    intro acc h c hc
    refine ih (Detect.clusterStep acc el) ?_ c hc
    intro c' hc'
    unfold Detect.clusterStep at hc'
    cases hlb : acc.2.2 with
    | none =>
      rw [hlb] at hc'
      exact h c' hc'
    | some lb =>
      rw [hlb] at hc'
      dsimp only at hc'
      by_cases hnear : (el.top - lb).natAbs < 60
      · rw [if_pos hnear] at hc'
        exact h c' hc'
      · rw [if_neg hnear] at hc'
        by_cases hflush : acc.2.1.length ≥ 2
        · rw [if_pos hflush] at hc'
          rcases List.mem_append.mp hc' with hin | hnew
          · exact h c' hin
          · simp only [List.mem_singleton] at hnew
            subst hnew
            exact hflush
        · rw [if_neg hflush] at hc'
          exact h c' hc'

/-- C7: visual clustering minimum size.  Every synthetic form produced by
`fallbackVisualDetection` — for every input snapshot — has at least 2
fields: clusters of fewer than 2 controls, including the final unflushed
cluster of the greedy pass, are discarded. -/
theorem fallbackVisualDetection_min_cluster_size
    (snapshot : List Detect.Control) (f : Detect.SynthForm)
    (hf : f ∈ Detect.fallbackVisualDetection snapshot) : 2 ≤ f.fields.length := by
  unfold Detect.fallbackVisualDetection at hf
  by_cases hempty :
      (snapshot.filter (fun el => !el.hidden && !el.disabled)).length = 0
  · rw [if_pos hempty] at hf
    simp at hf
  · rw [if_neg hempty] at hf
    obtain ⟨cl, hcl, rfl⟩ := List.mem_map.mp hf
    simp only [List.length_map]
    by_cases hlast :
        ((List.insertionSort (fun a b => a.top ≤ b.top)
            (snapshot.filter (fun el => !el.hidden && !el.disabled))).foldl
          Detect.clusterStep ([], [], none)).2.1.length ≥ 2
    · rw [if_pos hlast] at hcl
      rcases List.mem_append.mp hcl with hin | hnew
      · exact clusterStep_forms_min_size _ ([], [], none) (by simp) cl hin
      · simp only [List.mem_singleton] at hnew
        subst hnew
        exact hlast
    · rw [if_neg hlast] at hcl
      exact clusterStep_forms_min_size _ ([], [], none) (by simp) cl hcl

/-- Witness for `fallbackVisualDetection_min_cluster_size`: the synthetic
form built from two nearby controls has (at least) 2 fields. -/
theorem fallbackVisualDetection_min_cluster_size_witness :
    2 ≤ (Detect.SynthForm.fields
      { node := none, id := "", name := "", action := "", method := "",
        synthetic := true,
        fields := [Detect.mkSynthField (ctrlAt "a" 0 5),
                   Detect.mkSynthField (ctrlAt "b" 10 15)] }).length :=
  fallbackVisualDetection_min_cluster_size [ctrlAt "a" 0 5, ctrlAt "b" 10 15]
    { node := none, id := "", name := "", action := "", method := "",
      synthetic := true,
      fields := [Detect.mkSynthField (ctrlAt "a" 0 5),
                 Detect.mkSynthField (ctrlAt "b" 10 15)] }
    (by
      have h : Detect.fallbackVisualDetection [ctrlAt "a" 0 5, ctrlAt "b" 10 15] =
          [{ node := none, id := "", name := "", action := "", method := "",
             synthetic := true,
             fields := [Detect.mkSynthField (ctrlAt "a" 0 5),
                        Detect.mkSynthField (ctrlAt "b" 10 15)] }] := rfl
      rw [h]
      exact List.mem_singleton_self _)

/-- C8 counterexample: a detached element node (`nodeType = 1`, no owning
document view, so no computed style is reachable).  The claim says
`isHidden` returns `true` immediately without raising; the source instead
dereferences `node.ownerDocument.defaultView` with no guard and faults with
a TypeError. -/
theorem isHidden_detached_counterexample :
    Detect.isHidden [{ nodeType := 1, style := none, classes := [], ariaHidden := none }] =
      .error "TypeError" ∧
    Detect.isHidden [{ nodeType := 1, style := none, classes := [], ariaHidden := none }] ≠
      .ok true := by
  refine ⟨rfl, fun h => Except.noConfusion h⟩

/-- C8 (amended): `isHidden` does not treat detached nodes as hidden.  For a
node whose owning document/view is absent, the function raises a TypeError
when the node is an element (`nodeType = 1`, the guardless
`ownerDocument.defaultView.getComputedStyle` access faults) and returns
`false` — not `true` — when the node is not an element (the loop breaks
first). -/
theorem isHidden_detached_faults (n : Detect.NodeInfo) (rest : List Detect.NodeInfo)
    (hdet : n.style = none) :
    Detect.isHidden (n :: rest) =
      if n.nodeType ≠ 1 then .ok false else .error "TypeError" := by
  by_cases ht : n.nodeType = 1 <;> simp [Detect.isHidden, hdet, ht]

/-- Witness for `isHidden_detached_faults` at a concrete detached element
node. -/
theorem isHidden_detached_faults_witness :
    Detect.isHidden [{ nodeType := 1, style := none, classes := ["x"], ariaHidden := none }] =
      if (1 : Nat) ≠ 1 then .ok false else .error "TypeError" :=
  isHidden_detached_faults
    { nodeType := 1, style := none, classes := ["x"], ariaHidden := none } [] rfl
